import Mathlib

/-!
Shallow embedding of the ghost-query repository core:
the proxy server (`src/proxy-server/api/index.js`) and the client streaming /
reconstruction logic (the unnamed React component, `src/unnamed/part_000`).

Conventions:
* JavaScript strings are modelled as Lean `String` / `List Char`.
* `req.body.model` / `req.body.prompt` are `Option String`; JavaScript
  falsiness (`!model`) on these is `none` or the empty string.
* The outbound SSE transport is modelled as a list of discrete events; a
  `res.write` after `res.end()` does not reach the client and is dropped.
* The upstream axios call is a parameter of the handler functions, so that
  "no upstream call is made" is expressed as independence from it.
-/

namespace GhostQuery

/-! ## JavaScript character classes -/

/-- JavaScript `\s` (also the character set removed by `String.prototype.trim`):
space, tab, line feed, vertical tab, form feed, carriage return, NBSP, and the
Unicode space separators / BOM. -/
def isJsWs (c : Char) : Bool :=
  c = ' ' || c = '\t' || c = '\n' || c = '\x0b' || c = '\x0c' || c = '\r' ||
  c = ' ' || c = ' ' ||
  (0x2000 ≤ c.toNat && c.toNat ≤ 0x200a) ||
  c = ' ' || c = ' ' || c = ' ' || c = ' ' ||
  c = '　' || c = '﻿'

def isDigit (c : Char) : Bool := '0' ≤ c && c ≤ '9'

def isAsciiLetter (c : Char) : Bool := ('A' ≤ c && c ≤ 'Z') || ('a' ≤ c && c ≤ 'z')

def isUpperAscii (c : Char) : Bool := 'A' ≤ c && c ≤ 'Z'

/-! ## Gemini simulated streaming: `content.split(" ")` and `sendChunk`

`src/proxy-server/api/index.js` lines 128-150: the full upstream text is split
on single spaces; chunk `i` is `words[i]` plus a trailing space unless it is
the last word; after the last word a `[DONE]` marker is written and the
response is ended. -/

/-- JavaScript `content.split(" ")` on a character list: split at every
occurrence of the space character. `[]` yields `[[]]`, like JS
`"".split(" ") = [""]`. -/
def splitSp : List Char → List (List Char)
  | [] => [[]]
  | c :: rest =>
    if c = ' ' then [] :: splitSp rest
    else
      match splitSp rest with
      | [] => [[c]]
      | w :: ws => (c :: w) :: ws

/-- The `sendChunk` per-word chunks: every word but the last gets a trailing
space re-appended (`index < words.length - 1 ? " " : ""`). -/
def withSpaces : List (List Char) → List (List Char)
  | [] => []
  | [w] => [w]
  | w :: ws => (w ++ [' ']) :: withSpaces ws

/-- The chunk texts the Gemini streaming branch emits for a given upstream
`content`. -/
def geminiChunks (content : String) : List String :=
  (withSpaces (splitSp content.data)).map String.mk

/-! ## Client stream consumer (the React component, `src/unnamed/part_000`)

State touched by the four event listeners (lines 39-71), `handleSubmit`
(114-132) and `handleStop` (134-142). -/

structure ClientState where
  isLoading : Bool
  response : String
  error : String
  message : String
  deriving DecidableEq, Repr

/-- The `ai-response-chunk` listener: `setResponse((prev) => prev + event.payload)`.
Unconditional append; there is no guard against a previously issued cancel. -/
def onChunk (st : ClientState) (payload : String) : ClientState :=
  { st with response := st.response ++ payload }

/-- The `ai-response-done` listener: stop loading, clear the input message
(the history refresh is an external collaborator call). -/
def onDone (st : ClientState) : ClientState :=
  { st with isLoading := false, message := "" }

/-- The `ai-response-error` listener. -/
def onError (st : ClientState) (payload : String) : ClientState :=
  { st with error := payload, isLoading := false }

/-- The `ai-response-cancelled` listener: only stops loading. -/
def onCancelled (st : ClientState) : ClientState :=
  { st with isLoading := false }

/-- The `handleStop`: invokes the `stop_streaming` backend command and sets
`isLoading` to `false` (both on success and on failure of the invoke). -/
def handleStop (st : ClientState) : ClientState :=
  { st with isLoading := false }

/-- The `handleSubmit`: when the trimmed message is non-empty, enter loading state
and clear previous error and response. (`message.trim()` is modelled with
Lean's `String.trim`; the difference in Unicode whitespace sets does not
matter to any claim, none of which involves `handleSubmit`.) -/
def handleSubmit (st : ClientState) : ClientState :=
  if st.message.trim ≠ "" then
    { st with isLoading := true, error := "", response := "" }
  else st

/-! ## Quota limiter

`createRateLimit` (`src/proxy-server/api/index.js` lines 25-56) configures the
`express-rate-limit` dependency; only the window / max parameters and the
middleware chain live in the repository. -/

structure RLConfig where
  windowMs : Nat
  maxRequests : Nat
  deriving DecidableEq, Repr

structure RLState where
  windowStart : Nat
  counts : Nat → Nat

/-- Modelled from the spec: the window algorithm of the rate limiter lives in
the `express-rate-limit` dependency, not in the repository. Per the spec's
Quota Limiter contract: "On each call: if the window has expired, reset it;
increment `countsByKey[identity]`; return `allowed = count <= maxRequests`",
with expiry "`now - windowStartTime >= windowDurationMs`". Identities are
opaque keys (the source derives them from IP and User-Agent). -/
def rlCall (cfg : RLConfig) (st : RLState) (now : Nat) (k : Nat) :
    Bool × RLState :=
  let st1 := if cfg.windowMs ≤ now - st.windowStart then
      { windowStart := now, counts := fun _ => 0 } else st
  let c := st1.counts k + 1
  (decide (c ≤ cfg.maxRequests),
   { windowStart := st1.windowStart,
     counts := fun j => if j = k then c else st1.counts j })

/-- Fresh limiter state (empty window starting at `t0`). -/
def rlFresh (t0 : Nat) : RLState := ⟨t0, fun _ => 0⟩

/-- Run a sequence of calls for one identity at the given times. -/
def rlRun (cfg : RLConfig) (st : RLState) (k : Nat) :
    List Nat → List Bool × RLState
  | [] => ([], st)
  | t :: ts =>
    let r := rlCall cfg st t k
    let rs := rlRun cfg r.2 k ts
    (r.1 :: rs.1, rs.2)

/-- The `generalRateLimit`: 15 minutes, 100 requests (lines 52-56). -/
def generalRateLimit : RLConfig := ⟨15 * 60 * 1000, 100⟩

/-- The `geminiRateLimit`: 15 minutes, 50 requests (lines 39-43). -/
def geminiRateLimit : RLConfig := ⟨15 * 60 * 1000, 50⟩

/-- The `perplexityRateLimit`: 15 minutes, 30 requests (lines 45-49). -/
def perplexityRateLimit : RLConfig := ⟨15 * 60 * 1000, 30⟩

/-- The middleware chain of `app.post("/api/gemini", generalRateLimit,
geminiRateLimit, ...)` (line 68): the provider limiter runs only if the
general limiter admitted; the request is admitted iff both admit. -/
def chainCall (first second : RLConfig) (st1 st2 : RLState) (now : Nat)
    (k : Nat) : Bool × RLState × RLState :=
  let (a, st1') := rlCall first st1 now k
  if a then
    let (b, st2') := rlCall second st2 now k
    (b, st1', st2')
  else (false, st1', st2)

/-! ## JSON values and `JSON.parse`

`JSON.parse` is a language builtin; it is modelled here by a standard
recursive-descent JSON reader (RFC 8259 grammar: strict strings with
escapes, no trailing text, control characters must be escaped, no leading
zeros). Numbers are read into `Rat`. A `\uXXXX` escape denoting a lone
surrogate is rejected by this model (Lean `Char` carries scalar values only);
no claim below depends on surrogate escapes. -/

inductive JValue where
  | null
  | bool (b : Bool)
  | num (q : Rat)
  | str (s : String)
  | arr (xs : List JValue)
  | obj (fields : List (String × JValue))

/-- JSON insignificant whitespace (space, tab, line feed, carriage return). -/
def jsonWsChar (c : Char) : Bool := c = ' ' || c = '\t' || c = '\n' || c = '\r'

def skipJsonWs (l : List Char) : List Char := l.dropWhile jsonWsChar

/-- Value of one hexadecimal digit (codes 48-57 are `0`-`9`, 97-102 are
`a`-`f`, 65-70 are `A`-`F`). -/
def hexVal (c : Char) : Option Nat :=
  let n := c.toNat
  if 48 ≤ n && n ≤ 57 then some (n - 48)
  else if 97 ≤ n && n ≤ 102 then some (n - 87)
  else if 65 ≤ n && n ≤ 70 then some (n - 55)
  else none

/-- Read the body of a JSON string after the opening quote; returns the
decoded characters and the remainder after the closing quote. -/
def jStringBody (fuel : Nat) (l : List Char) : Option (List Char × List Char) :=
  match fuel, l with
  | 0, _ => none
  | _, [] => none
  | fuel + 1, c :: rest =>
    if c = '"' then some ([], rest)
    else if c = '\\' then
      match rest with
      | [] => none
      | e :: rest' =>
        let dec : Option (Char × List Char) :=
          if e = '"' then some ('"', rest')
          else if e = '\\' then some ('\\', rest')
          else if e = '/' then some ('/', rest')
          else if e = 'b' then some ('\x08', rest')
          else if e = 'f' then some ('\x0c', rest')
          else if e = 'n' then some ('\n', rest')
          else if e = 'r' then some ('\r', rest')
          else if e = 't' then some ('\t', rest')
          else if e = 'u' then
            match rest' with
            | h1 :: h2 :: h3 :: h4 :: rest'' =>
              match hexVal h1, hexVal h2, hexVal h3, hexVal h4 with
              | some a, some b, some c', some d =>
                let n := ((a * 16 + b) * 16 + c') * 16 + d
                if h : n.isValidChar then some (Char.ofNatAux n h, rest'')
                else none
              | _, _, _, _ => none
            | _ => none
          else none
        match dec with
        | none => none
        | some (ch, r) =>
          match jStringBody fuel r with
          | none => none
          | some (cs, rem) => some (ch :: cs, rem)
    else if c.toNat < 0x20 then none
    else
      match jStringBody fuel rest with
      | none => none
      | some (cs, rem) => some (c :: cs, rem)

/-- Read a JSON number (sign, integer part without leading zeros, optional
fraction, optional exponent) into a rational. -/
def jNumber (l : List Char) : Option (Rat × List Char) :=
  let neg : Bool := l.head? = some '-'
  let l1 : List Char := if l.head? = some '-' then l.tail else l
  let intDigits := l1.takeWhile isDigit
  let l2 := l1.dropWhile isDigit
  if intDigits = [] then none
  else if intDigits.length > 1 && intDigits.head? = some '0' then none
  else
    let intVal : Nat := intDigits.foldl (fun a c => a * 10 + (c.toNat - '0'.toNat)) 0
    let (fracDigits, l3) := match l2 with
      | '.' :: r => (r.takeWhile isDigit, r.dropWhile isDigit)
      | _ => ([], l2)
    if l2 ≠ [] && l2.head? = some '.' && fracDigits = [] then none
    else
      let fracVal : Nat := fracDigits.foldl (fun a c => a * 10 + (c.toNat - '0'.toNat)) 0
      let mantissa : Int := (intVal * 10 ^ fracDigits.length + fracVal : Nat)
      let mantissa := if neg then -mantissa else mantissa
      let expRes : Option (Int × List Char) := match l3 with
        | e :: r =>
          if e = 'e' || e = 'E' then
            let (eneg, r1) := match r with
              | '+' :: r' => (false, r')
              | '-' :: r' => (true, r')
              | _ => (false, r)
            let eDigits := r1.takeWhile isDigit
            if eDigits = [] then none
            else
              let ev : Nat := eDigits.foldl (fun a c => a * 10 + (c.toNat - '0'.toNat)) 0
              some (if eneg then -(ev : Int) else (ev : Int), r1.dropWhile isDigit)
          else some (0, l3)
        | [] => some (0, l3)
      match expRes with
      | none => none
      | some (ex, rest) =>
        let e10 : Int := ex - fracDigits.length
        let q : Rat :=
          if 0 ≤ e10 then (mantissa * 10 ^ e10.toNat : Int)
          else mkRat mantissa (10 ^ (-e10).toNat)
        some (q, rest)

mutual

/-- Read one JSON value. -/
def jValue (fuel : Nat) (l : List Char) : Option (JValue × List Char) :=
  match fuel with
  | 0 => none
  | fuel + 1 =>
    match skipJsonWs l with
    | 'n' :: 'u' :: 'l' :: 'l' :: r => some (.null, r)
    | 't' :: 'r' :: 'u' :: 'e' :: r => some (.bool true, r)
    | 'f' :: 'a' :: 'l' :: 's' :: 'e' :: r => some (.bool false, r)
    | '"' :: r =>
      match jStringBody (r.length + 1) r with
      | none => none
      | some (cs, rem) => some (.str (String.mk cs), rem)
    | '[' :: r =>
      (match skipJsonWs r with
       | ']' :: r' => some (.arr [], r')
       | _ =>
         match jArrayItems fuel r with
         | none => none
         | some (xs, rem) => some (.arr xs, rem))
    | '{' :: r =>
      (match skipJsonWs r with
       | '}' :: r' => some (.obj [], r')
       | _ =>
         match jObjectMembers fuel r with
         | none => none
         | some (fs, rem) => some (.obj fs, rem))
    | l' =>
      match jNumber l' with
      | none => none
      | some (q, rem) => some (.num q, rem)

/-- Read the comma-separated items of a non-empty array, consuming the
closing bracket. -/
def jArrayItems (fuel : Nat) (l : List Char) : Option (List JValue × List Char) :=
  match fuel with
  | 0 => none
  | fuel + 1 =>
    match jValue fuel l with
    | none => none
    | some (v, rem) =>
      match skipJsonWs rem with
      | ',' :: r =>
        (match jArrayItems fuel r with
         | none => none
         | some (vs, rem') => some (v :: vs, rem'))
      | ']' :: r => some ([v], r)
      | _ => none

/-- Read the comma-separated members of a non-empty object, consuming the
closing brace. -/
def jObjectMembers (fuel : Nat) (l : List Char) :
    Option (List (String × JValue) × List Char) :=
  match fuel with
  | 0 => none
  | fuel + 1 =>
    match skipJsonWs l with
    | '"' :: r =>
      (match jStringBody (r.length + 1) r with
       | none => none
       | some (cs, rem) =>
         match skipJsonWs rem with
         | ':' :: r' =>
           (match jValue fuel r' with
            | none => none
            | some (v, rem') =>
              match skipJsonWs rem' with
              | ',' :: r'' =>
                (match jObjectMembers fuel r'' with
                 | none => none
                 | some (fs, rem'') => some ((String.mk cs, v) :: fs, rem''))
              | '}' :: r'' => some ([(String.mk cs, v)], r'')
              | _ => none)
         | _ => none)
    | _ => none

end

/-- The `JSON.parse` on a character list: one value, nothing but whitespace
after it. -/
def jsonParseC (l : List Char) : Option JValue :=
  match jValue (2 * l.length + 2) l with
  | none => none
  | some (v, rem) => if skipJsonWs rem = [] then some v else none

def jsonParse (s : String) : Option JValue := jsonParseC s.data

/-- JavaScript truthiness of a JSON-derived value (`undefined` is represented
by `Option.none` at use sites). -/
def jTruthy : JValue → Bool
  | .null => false
  | .bool b => b
  | .num q => decide (q ≠ 0)
  | .str s => decide (s ≠ "")
  | .arr _ => true
  | .obj _ => true

/-- Property access `obj.key` on a parsed JSON value: only objects have
(string-keyed) own properties; later duplicate keys win, as with
`JSON.parse`. -/
def jField : JValue → String → Option JValue
  | .obj fs, key => fs.foldl (fun acc f => if f.1 = key then some f.2 else acc) none
  | _, _ => none

/-- Truthiness of `obj.key` where a missing property (`undefined`) is falsy. -/
def jFieldTruthy (v : JValue) (key : String) : Bool :=
  match jField v key with
  | none => false
  | some w => jTruthy w

/-! ## Outbound stream events

Each `data: ...` record the server writes on a streaming response. -/

inductive Event where
  /-- The `data: {"content": ..., "model": ..., "provider": ...}` -/
  | chunk (content : JValue) (model provider : String)
  /-- The `data: [DONE]` -/
  | done
  /-- The `data: {"error": ...}` -/
  | errorEvent (msg : String)

/-- The text of a chunk event whose content is a string (all Gemini chunks
are). -/
def chunkText : Event → Option String
  | .chunk (.str s) _ _ => some s
  | _ => none

def chunkTexts (es : List Event) : List String := es.filterMap chunkText

/-- Count of terminal records (`[DONE]` or an error record) in an outbound
event list. -/
def terminalCount (es : List Event) : Nat :=
  (es.filter fun e => match e with
    | .chunk _ _ _ => false
    | _ => true).length

/-! ## Upstream call outcomes

The `axios.post` of a handler either fulfills with a response body or rejects.
A rejection carries `error.response` (`some status` plus the optional
`error.response.data.error.message`) when the upstream answered with an HTTP
error status, and no response (`error.response === undefined`) on a timeout or
network failure, with only `error.message`. -/

inductive Failure where
  /-- HTTP error status from upstream:
  status, `error.response.data.error.message`, `error.message`. -/
  | http (status : Nat) (dataErrMsg : Option String) (message : String)
  /-- Timeout / network error: no `error.response`, only `error.message`. -/
  | timeout (message : String)

/-- Gemini `generateContent` body: the `candidates` field (possibly absent),
each candidate reduced to its `content?.parts?.[0]?.text` (possibly absent). -/
inductive GeminiUpstream where
  | ok (candidates : Option (List (Option String)))
  | fail (f : Failure)

/-- Everything a handler can produce on its transport. -/
inductive Response where
  /-- The `400 {error: "Missing required fields: model and prompt are required"}` -/
  | missingFields400
  /-- The `500 {error: "<provider> API key not configured"}` -/
  | apiKeyMissing500 (provider : String)
  /-- The `200 {success: true, content, model, provider}` (Gemini shape). -/
  | successJson (content model provider : String)
  /-- The `200 {success: true, content, citations, searchResults, model, provider}`
  (Perplexity shape). -/
  | successPerplexity (content : String) (citations searchResults : List String)
    (model : String)
  /-- The `500 {error: "No response from <provider> API"}` -/
  | noResponse500 (provider : String)
  /-- The `429 {error: "<provider> API rate limit exceeded"}` -/
  | rateLimited429 (provider : String)
  /-- The `400 {error: "Invalid request to <provider> API", details}` -/
  | invalidRequest400 (provider : String) (details : String)
  /-- The `500 {error: "<provider> API request failed", details}` -/
  | requestFailed500 (provider : String) (details : String)
  /-- An event-stream response that was properly ended. -/
  | streamed (events : List Event)
  /-- The handler itself threw: `written` is what had reached the transport
  before the throw; no further write and no `res.end()` happens. -/
  | handlerCrash (written : List Event) (err : String)

/-- JavaScript falsiness of `req.body.model` / `req.body.prompt`
(absent or empty string). -/
def falsyStr : Option String → Bool
  | none => true
  | some s => decide (s = "")

/-- The ReferenceError thrown by both catch blocks: `stream` is declared with
`const` inside the `try` block, so the identifier is not in scope in the
`catch` block, and no enclosing scope defines it. -/
def streamScopeError : String := "ReferenceError: stream is not defined"

/-- The event list written by `sendChunk` (lines 132-150): one chunk record
per word, then `[DONE]`. -/
def geminiStreamEvents (model content : String) : List Event :=
  ((geminiChunks content).map fun s => Event.chunk (.str s) model "gemini")
    ++ [Event.done]

/-- The `content = candidates[0].content?.parts?.[0]?.text || ""`. -/
def firstCandidateText (candidates : List (Option String)) : String :=
  match candidates.head? with
  | none => ""
  | some none => ""
  | some (some t) => t

/-- The `/api/gemini` handler (lines 68-214), after the rate-limit middleware
admitted the request. `hasKey` is `process.env.GEMINI_API_KEY` being set; the
upstream outcome is a parameter. Both the streaming and the non-streaming
branch share the `generateContent` call. On any rejection the `catch` block
evaluates the out-of-scope identifier `stream` and the handler crashes before
writing anything. -/
def geminiHandler (model prompt : Option String) (stream : Bool)
    (hasKey : Bool) (up : GeminiUpstream) : Response :=
  if falsyStr model || falsyStr prompt then .missingFields400
  else if ¬hasKey then .apiKeyMissing500 "Gemini"
  else
    match up with
    | .ok candidates =>
      match candidates with
      | some cs =>
        if cs.length > 0 then
          if stream then
            .streamed (geminiStreamEvents (model.getD "") (firstCandidateText cs))
          else
            .successJson (firstCandidateText cs) (model.getD "") "gemini"
        else
          if stream then .streamed [.errorEvent "No response from Gemini API"]
          else .noResponse500 "Gemini"
      | none =>
        if stream then .streamed [.errorEvent "No response from Gemini API"]
        else .noResponse500 "Gemini"
    | .fail _ => .handlerCrash [] streamScopeError

/-- The *text* of the Gemini catch block's non-streaming branch
(lines 197-211), taken on its own: the status-to-response mapping as written.
In the shipped handler this code is unreachable (see `geminiHandler`): the
`catch` block throws before reaching it. -/
def geminiCatchMapping (f : Failure) : Response :=
  match f with
  | .http status dataErrMsg message =>
    if status = 429 then .rateLimited429 "Gemini"
    else if status = 400 then
      .invalidRequest400 "Gemini" (dataErrMsg.getD "Bad request")
    else .requestFailed500 "Gemini" (dataErrMsg.getD message)
  | .timeout message => .requestFailed500 "Gemini" message

/-- The *text* of the Gemini catch block's streaming branch (lines 191-195):
one generic error record, regardless of the upstream status. Also unreachable
in the shipped handler. -/
def geminiCatchStreamingBranch : Event := .errorEvent "Gemini API request failed"

/-- Same for the Perplexity catch block (lines 351-365). -/
def perplexityCatchMapping (f : Failure) : Response :=
  match f with
  | .http status dataErrMsg message =>
    if status = 429 then .rateLimited429 "Perplexity"
    else if status = 400 then
      .invalidRequest400 "Perplexity" (dataErrMsg.getD "Bad request")
    else .requestFailed500 "Perplexity" (dataErrMsg.getD message)
  | .timeout message => .requestFailed500 "Perplexity" message

/-- The Perplexity streaming catch branch as written (lines 343-349). -/
def perplexityCatchStreamingBranch : Event :=
  .errorEvent "Perplexity API request failed"

/-! ## Perplexity SSE relay

Lines 267-307: each upstream `data` buffer is split on newlines; `data: `
lines are unwrapped; `[DONE]` forwards the terminal marker and ends the
response (the `return` skips the rest of that buffer only); JSON records with
a truthy `choices[0].delta.content` are re-wrapped as chunk records; malformed
JSON records are skipped. After `res.end()` later writes do not reach the
client. The upstream `end` event writes a final `[DONE]` if the response is
still open. -/

/-- The `line.trim() && line.startsWith("data: ")`, then `line.slice(6)`. -/
def sseLineData (line : List Char) : Option (List Char) :=
  if (line.dropWhile isJsWs ≠ []) &&
      (line.take 6 = "data: ".data) then
    some (line.drop 6)
  else none

/-- The `parsed.choices && parsed.choices[0]?.delta?.content` — the truthiness
test and the extracted content of one parsed record. The `[0]` index is array
access; on a truthy non-array `choices` JavaScript's `[0]` yields `undefined`
(or a character for strings, which then has no `delta`), so no content — the
contrived case of an object with an own property named `0` is not modelled. -/
def perplexityDelta (v : JValue) : Option JValue :=
  match jField v "choices" with
  | none => none
  | some choices =>
    if jTruthy choices then
      match choices with
      | .arr (first :: _) =>
        (match jField first "delta" with
         | none => none
         | some delta =>
           match jField delta "content" with
           | none => none
           | some content => if jTruthy content then some content else none)
      | _ => none
    else none

/-- Process the lines of one upstream buffer; returns the records written and
whether `res.end()` was reached (`[DONE]` seen). -/
def perplexityLines (model : String) : List (List Char) → List Event × Bool
  | [] => ([], false)
  | line :: rest =>
    match sseLineData line with
    | none => perplexityLines model rest
    | some data =>
      if data = "[DONE]".data then ([.done], true)
      else
        match jsonParseC data with
        | none => perplexityLines model rest
        | some parsed =>
          match perplexityDelta parsed with
          | none => perplexityLines model rest
          | some content =>
            let (evs, ended) := perplexityLines model rest
            (Event.chunk content model "perplexity" :: evs, ended)

/-- Split a buffer on `"\n"`. -/
def splitNl : List Char → List (List Char)
  | [] => [[]]
  | c :: rest =>
    if c = '\n' then [] :: splitNl rest
    else
      match splitNl rest with
      | [] => [[c]]
      | w :: ws => (c :: w) :: ws

/-- Relay all upstream buffers; after the response has been ended every
further write is dropped. The upstream `end` handler appends the final
`[DONE]` when the response is still open. -/
def perplexitySSE (model : String) (buffers : List String) : List Event :=
  let step := buffers.foldl (fun (acc : List Event × Bool) buf =>
    if acc.2 then acc
    else
      let (evs, ended) := perplexityLines model (splitNl buf.data)
      (acc.1 ++ evs, ended)) ([], false)
  if step.2 then step.1 else step.1 ++ [Event.done]

/-- Perplexity streaming upstream outcome: the sequence of `data` buffers, or
a rejection. -/
inductive PerplexityStreamUpstream where
  | ok (buffers : List String)
  | fail (f : Failure)

/-- Perplexity non-streaming body: `choices` (reduced to
`message?.content`), `citations`, `search_results`. -/
inductive PerplexityJsonUpstream where
  | ok (choices : Option (List (Option String)))
      (citations : Option (List String)) (searchResults : Option (List String))
  | fail (f : Failure)

/-- The `/api/perplexity` handler in streaming mode (lines 217-307 with
`stream = true`). The headers are sent before the upstream call; a rejection
reaches the catch block, which throws the same out-of-scope ReferenceError. -/
def perplexityStreamHandler (model prompt : Option String) (hasKey : Bool)
    (up : PerplexityStreamUpstream) : Response :=
  if falsyStr model || falsyStr prompt then .missingFields400
  else if ¬hasKey then .apiKeyMissing500 "Perplexity"
  else
    match up with
    | .ok buffers => .streamed (perplexitySSE (model.getD "") buffers)
    | .fail _ => .handlerCrash [] streamScopeError

/-- The `/api/perplexity` handler in non-streaming mode (lines 308-336). -/
def perplexityJsonHandler (model prompt : Option String) (hasKey : Bool)
    (up : PerplexityJsonUpstream) : Response :=
  if falsyStr model || falsyStr prompt then .missingFields400
  else if ¬hasKey then .apiKeyMissing500 "Perplexity"
  else
    match up with
    | .ok choices citations searchResults =>
      match choices with
      | some cs =>
        if cs.length > 0 then
          .successPerplexity (firstCandidateText cs) (citations.getD [])
            (searchResults.getD []) (model.getD "")
        else .noResponse500 "Perplexity"
      | none => .noResponse500 "Perplexity"
    | .fail _ => .handlerCrash [] streamScopeError

/-! ## Response reconstructor (`src/unnamed/part_000`, lines 166-277)

`normalizeStreamingText`, `cleanCurrencyAndPercent` and `formatResponse`,
embedded stage by stage. Each `String.prototype.replace` with a global regex
is modelled by a character-list transducer; the two rewrites whose
replacement template reproduces the matched text verbatim are the identity
function on strings and are embedded as such (with the argument recorded in
their doc comments). -/

/-- First replace of `normalizeStreamingText`:
`/[​‌‍⁠]/g → " "`. -/
def normZeroWidth (c : Char) : Char :=
  if c = '​' || c = '‌' || c = '‍' || c = '⁠' then ' ' else c

/-- Second replace: `/[  ]/g → " "`. -/
def normNbsp (c : Char) : Char :=
  if c = ' ' || c = ' ' then ' ' else c

/-- The `normalizeStreamingText` (lines 167-176), including the `if (!text)`
guard. -/
def normalizeStreamingText (s : String) : String :=
  if s = "" then s else String.mk ((s.data.map normZeroWidth).map normNbsp)

/-- Stage 1 of `cleanCurrencyAndPercent`:
`.replace(/\$(\d+\.?\d*)/g, "$$$1")`. In the replacement template `$$` is a
literal dollar sign and `$1` the capture, so every match `"$" + $1` is
replaced by `"$" + $1`: the rewrite is the identity on every string. -/
def fixCurrency (l : List Char) : List Char := l

/-- Stage 4: `.replace(/(\d+)\.(\d+)/g, "$1.$2")`. The template re-emits
`$1 "." $2`, which is exactly the matched text, so this rewrite is also the
identity on every string. -/
def fixDecimals (l : List Char) : List Char := l

/-- Scanner state for stage 2, `.replace(/(\d+(?:\.\d+)?)\s*%/g, "$1%")`.
The held buffer is a candidate match prefix: digits, digits-dot,
digits-dot-digits, or a complete number followed by pending whitespace. -/
inductive PercState where
  | idle
  | num (ds : List Char)
  | numDot (ds : List Char)
  | numFrac (ds fs : List Char)
  | numWs (held ws : List Char)

/-- One step of the stage-2 scanner: returns the characters that are now
definitely part of the output plus the new state. The only output-relevant
rewrite of the regex is deleting the whitespace run between a number and a
directly following `%` (a match with empty `\s*` is rewritten to itself);
failed candidates are flushed verbatim and scanning restarts at the
offending character, matching the regex engine's leftmost-match restart. -/
def percStep : PercState → Char → List Char × PercState
  | .idle, c => if isDigit c then ([], .num [c]) else ([c], .idle)
  | .num ds, c =>
    if isDigit c then ([], .num (ds ++ [c]))
    else if c = '.' then ([], .numDot ds)
    else if c = '%' then (ds ++ ['%'], .idle)
    else if isJsWs c then ([], .numWs ds [c])
    else (ds ++ [c], .idle)
  | .numDot ds, c =>
    if isDigit c then ([], .numFrac ds [c])
    else (ds ++ ['.', c], .idle)
  | .numFrac ds fs, c =>
    if isDigit c then ([], .numFrac ds (fs ++ [c]))
    else if c = '%' then (ds ++ ['.'] ++ fs ++ ['%'], .idle)
    else if isJsWs c then ([], .numWs (ds ++ ['.'] ++ fs) [c])
    else (ds ++ ['.'] ++ fs ++ [c], .idle)
  | .numWs held ws, c =>
    if c = '%' then (held ++ ['%'], .idle)
    else if isJsWs c then ([], .numWs held (ws ++ [c]))
    else if isDigit c then (held ++ ws, .num [c])
    else (held ++ ws ++ [c], .idle)

/-- Flush the pending candidate when the input ends (no `%` followed, so the
held characters are emitted verbatim). -/
def percFlush : PercState → List Char
  | .idle => []
  | .num ds => ds
  | .numDot ds => ds ++ ['.']
  | .numFrac ds fs => ds ++ ['.'] ++ fs
  | .numWs held ws => held ++ ws

def percGo (st : PercState) : List Char → List Char
  | [] => percFlush st
  | c :: rest =>
    let (out, st') := percStep st c
    out ++ percGo st' rest

/-- Stage 2: `.replace(/(\d+(?:\.\d+)?)\s*%/g, "$1%")` — deletes the
whitespace between a number and a following percent sign. -/
def fixPercent (l : List Char) : List Char := percGo .idle l

/-- Stage 3: `.replace(/(\d+)([A-Za-z])/g, "$1 $2")` — inserts a space
between a digit and a directly following ASCII letter. The regex consumes
the whole digit run and one letter per match and resumes after the letter;
on adjacent pairs this is exactly the pairwise insertion below. -/
def digitLetter : List Char → List Char
  | [] => []
  | [c] => [c]
  | a :: b :: rest =>
    if isDigit a && isAsciiLetter b then a :: ' ' :: b :: digitLetter rest
    else a :: digitLetter (b :: rest)

/-- Stage 5 worker: `inRun` records whether the previous character belonged
to a whitespace run whose space has already been emitted. -/
def collapseWsGo (inRun : Bool) : List Char → List Char
  | [] => []
  | c :: rest =>
    if isJsWs c then
      if inRun then collapseWsGo true rest
      else ' ' :: collapseWsGo true rest
    else c :: collapseWsGo false rest

/-- Stage 5: `.replace(/\s+/g, " ")` — every maximal whitespace run becomes
one space. -/
def collapseWs (l : List Char) : List Char := collapseWsGo false l

/-- Stage 6: `.replace(/([.!?])([A-Z])/g, "$1 $2")` — inserts a space between
sentence punctuation and a directly following capital; the regex consumes
both characters and resumes after the capital, which the pairwise insertion
below reproduces. -/
def sentenceSpace : List Char → List Char
  | [] => []
  | [c] => [c]
  | a :: b :: rest =>
    if (a = '.' || a = '!' || a = '?') && isUpperAscii b then
      a :: ' ' :: b :: sentenceSpace rest
    else a :: sentenceSpace (b :: rest)

/-- The `cleanCurrencyAndPercent` (lines 179-198): the six chained replaces,
with the `if (!text)` guard. -/
def cleanCurrencyAndPercent (s : String) : String :=
  if s = "" then s
  else String.mk
    (sentenceSpace (collapseWs (fixDecimals (digitLetter (fixPercent
      (fixCurrency s.data))))))

/-- The `cleanCurrencyAndPercent(normalizeStreamingText(text))`, the combination
applied to every piece of displayed text. -/
def cleanNormStr (s : String) : String :=
  cleanCurrencyAndPercent (normalizeStreamingText s)

/-- The `String.prototype.trim`. -/
def jsTrim (l : List Char) : List Char :=
  ((l.dropWhile isJsWs).reverse.dropWhile isJsWs).reverse

/-- The `indexOf` of a single character (`none` for `-1`). -/
def firstIdx (c : Char) : List Char → Option Nat
  | [] => none
  | x :: xs => if x = c then some 0 else (firstIdx c xs).map (· + 1)

/-- The `lastIndexOf` of a single character. -/
def lastIdx (c : Char) (l : List Char) : Option Nat :=
  (firstIdx c l.reverse).map (fun i => l.length - 1 - i)

/-- Lines 203-212 of `formatResponse`: trim, then cut to the first `{` …
last `}` (`substring(jsonStart, jsonEnd + 1)`) when those bounds exist and
are ordered. -/
def jsonSliceC (l : List Char) : List Char :=
  match firstIdx '{' (jsTrim l), lastIdx '}' (jsTrim l) with
  | some i, some j =>
    if j > i then ((jsTrim l).drop i).take (j + 1 - i) else jsTrim l
  | _, _ => jsTrim l

/-- The capture of `/"FIELD":\s*"([^"]+)"/` tried at a position directly
after the literal `"FIELD":`: optional whitespace, a quote, one or more
non-quote characters, a closing quote. -/
def fieldAfterColon (l : List Char) : Option (List Char) :=
  match l.dropWhile isJsWs with
  | '"' :: rest =>
    let cap := rest.takeWhile (fun c => c ≠ '"')
    (match rest.dropWhile (fun c => c ≠ '"') with
     | '"' :: _ => if cap = [] then none else some cap
     | _ => none)
  | _ => none

/-- First match of `/"FIELD":\s*"([^"]+)"/` over the whole text: scan for the
literal, try the tail, restart past the failed position otherwise. -/
def findField (pat : List Char) : List Char → Option (List Char)
  | [] => none
  | c :: rest =>
    if (c :: rest).take pat.length = pat then
      match fieldAfterColon ((c :: rest).drop pat.length) with
      | some cap => some cap
      | none => findField pat rest
    else findField pat rest

/-- Is a character one the JavaScript regex `.` does not match? -/
def isLineTerm (c : Char) : Bool :=
  c = '\n' || c = '\r' || c = ' ' || c = ' '

/-- The capture of `/"key_points":\s*\[(.*?)\]/` tried directly after the
literal: optional whitespace, `[`, then the lazy dot-capture up to the first
`]` (failing if a line terminator intervenes, since `.` cannot match it). -/
def bracketAfterColon (l : List Char) : Option (List Char) :=
  match l.dropWhile isJsWs with
  | '[' :: rest =>
    let cap := rest.takeWhile (fun c => c ≠ ']')
    (match rest.dropWhile (fun c => c ≠ ']') with
     | ']' :: _ => if cap.all (fun c => ¬ isLineTerm c) then some cap else none
     | _ => none)
  | _ => none

/-- First match of the key-points pattern over the whole text. -/
def findBracket (pat : List Char) : List Char → Option (List Char)
  | [] => none
  | c :: rest =>
    if (c :: rest).take pat.length = pat then
      match bracketAfterColon ((c :: rest).drop pat.length) with
      | some cap => some cap
      | none => findBracket pat rest
    else findBracket pat rest

/-- The `split(",")`. -/
def splitComma : List Char → List (List Char)
  | [] => [[]]
  | c :: rest =>
    if c = ',' then [] :: splitComma rest
    else
      match splitComma rest with
      | [] => [[c]]
      | w :: ws => (c :: w) :: ws

/-- The `Array.prototype.join(sep)`. -/
def joinSep (sep : String) : List String → String
  | [] => ""
  | [x] => x
  | x :: y :: rest => x ++ sep ++ joinSep sep (y :: rest)

/-- Plain string concatenation of a list. -/
def strJoin : List String → String
  | [] => ""
  | s :: rest => s ++ strJoin rest

/-- The structured rendering (lines 235-237): heading, paragraph, key-points
list (`.map(point => "- " + point).join("\n")`). -/
def renderStructured (sm dt : String) (ps : List String) : String :=
  "## " ++ sm ++ "\n\n" ++ dt ++ "\n\n### Key Points\n\n" ++
    joinSep "\n" (ps.map fun p => "- " ++ p)

/-- The four-way truthiness test of lines 218-223 (`parsed.summary &&
parsed.details && parsed.key_points && parsed.status`). -/
def structCheck (parsed : JValue) : Bool :=
  jFieldTruthy parsed "summary" && jFieldTruthy parsed "details" &&
  jFieldTruthy parsed "key_points" && jFieldTruthy parsed "status"

/-- Template-literal coercion `- ${point}` of the falsy values that can
appear as key-point elements without throwing (`null`, `false`, `0`, `""`);
truthy non-strings never reach the template because `.replace` throws on
them first. -/
def jsDisplayFalsy : JValue → String
  | .null => "null"
  | .bool b => if b then "true" else "false"
  | .num _ => "0"
  | .str s => s
  | .arr _ => ""
  | .obj _ => ""

/-- The `cleanCurrencyAndPercent(normalizeStreamingText(point))` on one
key-point element: falsy values pass through the `if (!text)` guards
untouched, truthy strings are cleaned, truthy non-strings make `.replace`
throw a TypeError (`none`). -/
def cleanPointValue (v : JValue) : Option String :=
  if jTruthy v then
    match v with
    | .str s => some (cleanNormStr s)
    | _ => none
  else some (jsDisplayFalsy v)

/-- Lines 224-237 after the truthiness check passed: computing the cleaned
summary, details and key points. `none` means a TypeError was thrown
(non-string summary or details, non-array key points, or a truthy non-string
element) and control reaches the catch block. -/
def extractStructured (parsed : JValue) : Option (String × String × List String) :=
  match jField parsed "summary", jField parsed "details",
      jField parsed "key_points" with
  | some (.str sm), some (.str dt), some (.arr pts) =>
    (match pts.mapM cleanPointValue with
     | some cleaned => some (cleanNormStr sm, cleanNormStr dt, cleaned)
     | none => none)
  | _, _, _ => none

/-- The catch block of `formatResponse` (lines 239-273): best-effort field
extraction from the original text, falling back to cleaned raw text. -/
def catchBranch (response : String) : String :=
  match findField "\"summary\":".data response.data,
      findField "\"details\":".data response.data with
  | some sm, some dt =>
    let base := "## " ++ cleanNormStr (String.mk sm) ++ "\n\n" ++
      cleanNormStr (String.mk dt)
    (match findBracket "\"key_points\":".data response.data with
     | some cap =>
       let points := (((splitComma cap).map fun p =>
           (jsTrim p).filter (fun c => c ≠ '"')).filter
             (fun p => p ≠ [])).map fun p => cleanNormStr (String.mk p)
       if points.length > 0 then
         base ++ "\n\n### Key Points\n\n" ++
           joinSep "\n" (points.map fun p => "- " ++ p)
       else base
     | none => base)
  | _, _ => cleanNormStr response

/-- The `formatResponse` (lines 201-277). A parse that yields a non-structured
value falls through the `if` inside the `try` with no exception and reaches
the final cleaned-raw-text return; a parse failure or a TypeError inside the
structured branch lands in the catch block. (One immaterial shortcut: when
the parse yields JSON `null`, JavaScript's `parsed.summary` would throw and
take the catch branch, while this model falls through to the freeform tier —
that happens only when the sliced text is exactly `null`, which contains no
quote, so both paths return the same cleaned raw text.) -/
def formatResponse (response : String) : String :=
  match jsonParseC (jsonSliceC response.data) with
  | some parsed =>
    if structCheck parsed then
      match extractStructured parsed with
      | some (sm, dt, ps) => renderStructured sm dt ps
      | none => catchBranch response
    else cleanNormStr response
  | none => catchBranch response

/-- The structured tier as a predicate: the response reaches the
`renderStructured` return with these cleaned fields. -/
def structuredOf (response : String) : Option (String × String × List String) :=
  match jsonParseC (jsonSliceC response.data) with
  | some parsed =>
    if structCheck parsed then extractStructured parsed else none
  | none => none

/-! # Theorems -/

theorem splitSp_ne_nil (l : List Char) : splitSp l ≠ [] := by
  cases l with
  | nil => simp [splitSp]
  | cons c rest =>
    by_cases h : c = ' '
    · simp [splitSp, h]
    · cases hrest : splitSp rest with
      | nil => simp [splitSp, h, hrest]
      | cons w ws => simp [splitSp, h, hrest]

/-- Round trip: re-concatenating the chunks (with the re-appended spaces)
recovers the original character list. -/
theorem join_withSpaces_splitSp (l : List Char) :
    (withSpaces (splitSp l)).flatten = l := by
  induction l with
  | nil => simp [splitSp, withSpaces]
  | cons c rest ih =>
    obtain ⟨w, ws, hrest⟩ : ∃ w ws, splitSp rest = w :: ws := by
      cases hr : splitSp rest with
      | nil => exact absurd hr (splitSp_ne_nil rest)
      | cons w ws => exact ⟨w, ws, rfl⟩
    rw [hrest] at ih
    by_cases h : c = ' '
    · subst h
      rw [show splitSp (' ' :: rest) = [] :: splitSp rest from by simp [splitSp],
        hrest]
      simp only [withSpaces]
      cases ws with
      | nil =>
        simp only [withSpaces] at ih ⊢
        simp_all
      | cons w' ws' =>
        simp only [withSpaces] at ih ⊢
        simp_all
    · rw [show splitSp (c :: rest) = (c :: w) :: ws from by simp [splitSp, h, hrest]]
      cases ws with
      | nil =>
        simp only [withSpaces] at ih ⊢
        simp_all
      | cons w' ws' =>
        simp only [withSpaces] at ih ⊢
        simp_all

theorem rlCall_no_reset (cfg : RLConfig) (st : RLState) (now k : Nat)
    (h : now - st.windowStart < cfg.windowMs) :
    rlCall cfg st now k =
      (decide (st.counts k + 1 ≤ cfg.maxRequests),
       ⟨st.windowStart, fun j => if j = k then st.counts k + 1 else st.counts j⟩) := by
  simp only [rlCall, if_neg (Nat.not_le.mpr h)]

/-- Running calls whose times all lie inside the current window keeps the
window start, and the count for `k` increases by the number of calls. -/
theorem rlRun_within (cfg : RLConfig) (k : Nat) (ts : List Nat)
    (st : RLState) (h : ∀ t ∈ ts, t - st.windowStart < cfg.windowMs) :
    (rlRun cfg st k ts).2.windowStart = st.windowStart ∧
    (rlRun cfg st k ts).2.counts k = st.counts k + ts.length := by
  induction ts generalizing st with
  | nil => simp [rlRun]
  | cons t ts ih =>
    have ht := h t (by simp)
    simp only [rlRun, rlCall_no_reset cfg st t k ht]
    have := ih (⟨st.windowStart, fun j => if j = k then st.counts k + 1 else st.counts j⟩)
      (by intro u hu; simpa using h u (by simp [hu]))
    simp only [if_pos rfl] at this
    refine ⟨this.1, ?_⟩
    rw [this.2]
    simp [Nat.add_comm, Nat.add_assoc, Nat.add_left_comm]

/-- If from state `st` the count for `k` can absorb all the calls, every call
in the run is admitted. -/
theorem rlRun_all_admitted (cfg : RLConfig) (k : Nat) (ts : List Nat)
    (st : RLState) (h : ∀ t ∈ ts, t - st.windowStart < cfg.windowMs)
    (hcap : st.counts k + ts.length ≤ cfg.maxRequests) :
    ∀ b ∈ (rlRun cfg st k ts).1, b = true := by
  induction ts generalizing st with
  | nil => simp [rlRun]
  | cons t ts ih =>
    have ht := h t (by simp)
    simp only [rlRun, rlCall_no_reset cfg st t k ht]
    intro b hb
    simp only [List.mem_cons] at hb
    rcases hb with hb | hb
    · subst hb
      simp only [List.length_cons] at hcap
      simp [decide_eq_true_eq]
      omega
    · refine ih (⟨st.windowStart, fun j => if j = k then st.counts k + 1 else st.counts j⟩)
        ?_ ?_ b hb
      · intro u hu; simpa using h u (by simp [hu])
      · simp only [List.length_cons] at hcap
        simp
        omega

/-! ### C1: terminal events of a streamed request -/

/-- C1. The claim "every streamed request's event sequence contains exactly
one terminal event ... in particular an adapter timeout yields exactly one
terminal Error event" fails on the code: on a timeout the Gemini streaming
handler's catch block evaluates the out-of-scope identifier `stream`, throws
a ReferenceError, and the handler crashes with zero events written — in
particular zero terminal events instead of exactly one. -/
theorem gemini_stream_timeout_emits_no_terminal_event :
    geminiHandler (some "gemini-1.5-flash") (some "hi") true true
        (.fail (.timeout "timeout of 30000ms exceeded")) =
      .handlerCrash [] streamScopeError ∧
    terminalCount [] = 0 := by
  exact ⟨rfl, rfl⟩

/-! ### C2: Adapter A chunk round trip -/

/-- C2. For the Gemini endpoint in streaming mode, concatenating the texts of
all emitted Chunk events, in arrival order, equals the full upstream response
text. -/
theorem gemini_chunks_roundtrip (model content : String) (_h : content ≠ "") :
    strJoin (chunkTexts (geminiStreamEvents model content)) = content := by
  have h1 : chunkTexts (geminiStreamEvents model content) = geminiChunks content := by
    simp [chunkTexts, geminiStreamEvents, chunkText, List.filterMap_append,
      List.filterMap_map]
    simp [Function.comp_def, chunkText]
  rw [h1]
  have h2 : ∀ ls : List (List Char), strJoin (ls.map String.mk) = String.mk ls.flatten := by
    intro ls
    induction ls with
    | nil => rfl
    | cons x xs ih =>
      simp only [List.map_cons, strJoin, ih, List.flatten_cons]
      apply String.ext
      simp
  have h3 := join_withSpaces_splitSp content.data
  calc strJoin (geminiChunks content)
      = String.mk (withSpaces (splitSp content.data)).flatten := h2 _
    _ = String.mk content.data := by rw [h3]
    _ = content := rfl

/-- C2 witness. -/
theorem gemini_chunks_roundtrip_witness :
    ("hi there" : String) ≠ "" ∧
    strJoin (chunkTexts (geminiStreamEvents "gemini-1.5-flash" "hi there")) =
      "hi there" :=
  ⟨by decide, gemini_chunks_roundtrip "gemini-1.5-flash" "hi there" (by decide)⟩

/-! ### C3: validation happens before any upstream call -/

/-- C3. A request with a missing or empty `model` or `prompt` is answered
with the structured 400 response by every handler, for every possible
upstream behaviour — i.e. the result does not depend on the upstream at all,
so no upstream call is observable. -/
theorem validation_rejects_before_upstream (model prompt : Option String)
    (stream hasKey : Bool) (gu : GeminiUpstream)
    (pu : PerplexityStreamUpstream) (pju : PerplexityJsonUpstream)
    (h : falsyStr model || falsyStr prompt) :
    geminiHandler model prompt stream hasKey gu = .missingFields400 ∧
    perplexityStreamHandler model prompt hasKey pu = .missingFields400 ∧
    perplexityJsonHandler model prompt hasKey pju = .missingFields400 := by
  refine ⟨?_, ?_, ?_⟩ <;>
    simp [geminiHandler, perplexityStreamHandler, perplexityJsonHandler, h]

/-- C3 witness: an empty `model` with a present `prompt`. -/
theorem validation_rejects_before_upstream_witness :
    (falsyStr (some "") || falsyStr (some "hello")) = true ∧
    (geminiHandler (some "") (some "hello") true true (.ok (some [some "x"])) =
        .missingFields400 ∧
      perplexityStreamHandler (some "") (some "hello") true (.ok ["data: [DONE]\n\n"]) =
        .missingFields400 ∧
      perplexityJsonHandler (some "") (some "hello") true (.ok (some [some "x"]) none none) =
        .missingFields400) :=
  ⟨by decide,
    validation_rejects_before_upstream (some "") (some "hello") true true
      (.ok (some [some "x"])) (.ok ["data: [DONE]\n\n"])
      (.ok (some [some "x"]) none none) (by decide)⟩

/-! ### C6: the error path itself throws -/

/-- C6. The claim "unhandled exceptions are caught and converted to a generic
internal error; the handlers' own error paths never themselves raise" fails on
the code: both catch blocks read `stream`, which is `const`-declared inside
the `try` block and hence not in scope in the catch, so the first statement of
either catch block raises a ReferenceError and the handler's async function
rejects without having written any error response. -/
theorem catch_block_itself_throws :
    perplexityJsonHandler (some "sonar") (some "hi") true
        (.fail (.http 500 none "Request failed with status code 500")) =
      .handlerCrash [] streamScopeError ∧
    geminiHandler (some "gemini-1.5-flash") (some "hi") false true
        (.fail (.http 500 (some "boom") "Request failed with status code 500")) =
      .handlerCrash [] streamScopeError :=
  ⟨rfl, rfl⟩

/-! ### C9: chunks arriving after a local cancel -/

/-- C9 counterexample. The claim "every chunk event that arrives after a
local cancel is discarded: it is not appended to the response buffer" is
false: the chunk listener appends unconditionally. After cancelling with
buffer `"ab"`, an arriving chunk `"c"` changes the buffer to `"abc"`. -/
theorem chunk_after_cancel_still_appended :
    (onChunk (handleStop ⟨true, "ab", "", "q"⟩) "c").response ≠
      (handleStop ⟨true, "ab", "", "q"⟩).response := by
  decide

/-- C9 amended: a chunk event arriving after a local cancel is still appended
to the response buffer (the listener has no cancellation guard), but it does
not reopen the loading state. -/
theorem chunk_after_cancel_appends_without_reopening (st : ClientState)
    (payload : String) :
    (onChunk (handleStop st) payload).response = st.response ++ payload ∧
    (onChunk (handleStop st) payload).isLoading = false := by
  exact ⟨rfl, rfl⟩

/-! ### C5: upstream failure status mapping -/

/-- C5 counterexample. The claim says the 429-to-rate-limited mapping is
produced "for both the streaming and the non-streaming request mode". In
streaming mode an upstream 429 produces no rate-limited response at all: the
catch block crashes on the out-of-scope `stream` before any mapping code
(and even the streaming branch as written would only emit a generic error
event). -/
theorem stream_mode_429_not_mapped :
    geminiHandler (some "gemini-1.5-flash") (some "hi") true true
        (.fail (.http 429 none "Request failed with status code 429")) =
      .handlerCrash [] streamScopeError ∧
    Response.handlerCrash [] streamScopeError ≠ .rateLimited429 "Gemini" :=
  ⟨rfl, fun h => Response.noConfusion h⟩

/-- C5 amended: the 429 → rate-limited / 400 → bad-request-with-detail /
other-or-timeout → 500 mapping exists only as the text of the catch blocks'
non-streaming branch (`geminiCatchMapping` / `perplexityCatchMapping`); in
the shipped handlers every upstream failure, in either mode, instead ends in
the catch block's ReferenceError crash, because `stream` is not in scope
there. -/
theorem catch_mapping_as_written (s : Nat) (d : Option String) (m : String)
    (f : Failure) (model prompt : String) (stream : Bool)
    (hm : model ≠ "") (hp : prompt ≠ "") :
    (geminiCatchMapping (.http 429 d m) = .rateLimited429 "Gemini") ∧
    (perplexityCatchMapping (.http 429 d m) = .rateLimited429 "Perplexity") ∧
    (geminiCatchMapping (.http 400 d m) =
      .invalidRequest400 "Gemini" (d.getD "Bad request")) ∧
    (perplexityCatchMapping (.http 400 d m) =
      .invalidRequest400 "Perplexity" (d.getD "Bad request")) ∧
    (s ≠ 429 → s ≠ 400 →
      geminiCatchMapping (.http s d m) = .requestFailed500 "Gemini" (d.getD m)) ∧
    (s ≠ 429 → s ≠ 400 →
      perplexityCatchMapping (.http s d m) =
        .requestFailed500 "Perplexity" (d.getD m)) ∧
    (geminiCatchMapping (.timeout m) = .requestFailed500 "Gemini" m) ∧
    (perplexityCatchMapping (.timeout m) = .requestFailed500 "Perplexity" m) ∧
    (geminiHandler (some model) (some prompt) stream true (.fail f) =
      .handlerCrash [] streamScopeError) ∧
    (perplexityStreamHandler (some model) (some prompt) true (.fail f) =
      .handlerCrash [] streamScopeError) ∧
    (perplexityJsonHandler (some model) (some prompt) true (.fail f) =
      .handlerCrash [] streamScopeError) := by
  refine ⟨rfl, rfl, rfl, rfl, ?_, ?_, rfl, rfl, ?_, ?_, ?_⟩
  · intro h429 h400
    simp [geminiCatchMapping, h429, h400]
  · intro h429 h400
    simp [perplexityCatchMapping, h429, h400]
  · simp [geminiHandler, falsyStr, hm, hp]
  · simp [perplexityStreamHandler, falsyStr, hm, hp]
  · simp [perplexityJsonHandler, falsyStr, hm, hp]

/-- C5 amended witness. -/
theorem catch_mapping_as_written_witness :
    (("sonar" : String) ≠ "" ∧ ("hi" : String) ≠ "") ∧
    ((geminiCatchMapping (.http 429 (some "det") "msg") = .rateLimited429 "Gemini") ∧
    (perplexityCatchMapping (.http 429 (some "det") "msg") = .rateLimited429 "Perplexity") ∧
    (geminiCatchMapping (.http 400 (some "det") "msg") =
      .invalidRequest400 "Gemini" ((some "det").getD "Bad request")) ∧
    (perplexityCatchMapping (.http 400 (some "det") "msg") =
      .invalidRequest400 "Perplexity" ((some "det").getD "Bad request")) ∧
    ((503 : Nat) ≠ 429 → (503 : Nat) ≠ 400 →
      geminiCatchMapping (.http 503 (some "det") "msg") =
        .requestFailed500 "Gemini" ((some "det").getD "msg")) ∧
    ((503 : Nat) ≠ 429 → (503 : Nat) ≠ 400 →
      perplexityCatchMapping (.http 503 (some "det") "msg") =
        .requestFailed500 "Perplexity" ((some "det").getD "msg")) ∧
    (geminiCatchMapping (.timeout "msg") = .requestFailed500 "Gemini" "msg") ∧
    (perplexityCatchMapping (.timeout "msg") = .requestFailed500 "Perplexity" "msg") ∧
    (geminiHandler (some "sonar") (some "hi") false true
        (.fail (.timeout "msg")) = .handlerCrash [] streamScopeError) ∧
    (perplexityStreamHandler (some "sonar") (some "hi") true
        (.fail (.timeout "msg")) = .handlerCrash [] streamScopeError) ∧
    (perplexityJsonHandler (some "sonar") (some "hi") true
        (.fail (.timeout "msg")) = .handlerCrash [] streamScopeError)) :=
  ⟨⟨by decide, by decide⟩,
    catch_mapping_as_written 503 (some "det") "msg" (.timeout "msg")
      "sonar" "hi" false (by decide) (by decide)⟩

/-! ### C8: success with no content -/

/-- C8 counterexample. The claim says an upstream success carrying no
content yields an empty-response error. But when the response has a
(non-empty) `candidates` array whose first candidate has no text, the
handler falls back to `""` and answers with a *success* response carrying
empty content (and, in streaming mode, one empty chunk before `[DONE]`). -/
theorem empty_candidate_text_is_success :
    geminiHandler (some "gemini-1.5-flash") (some "hi") false true
        (.ok (some [none])) =
      .successJson "" "gemini-1.5-flash" "gemini" ∧
    Response.successJson "" "gemini-1.5-flash" "gemini" ≠ .noResponse500 "Gemini" :=
  ⟨rfl, fun h => Response.noConfusion h⟩

/-- C8 amended: only the *absence of the candidates array or an empty
candidates array* yields the error ("No response from Gemini API" event in
streaming mode, 500 error otherwise); a present candidate without text is
treated as success with empty content. -/
theorem gemini_empty_response_handling (model prompt : String)
    (rest : List (Option String)) (hm : model ≠ "") (hp : prompt ≠ "") :
    (geminiHandler (some model) (some prompt) true true (.ok none) =
      .streamed [.errorEvent "No response from Gemini API"]) ∧
    (geminiHandler (some model) (some prompt) true true (.ok (some [])) =
      .streamed [.errorEvent "No response from Gemini API"]) ∧
    (geminiHandler (some model) (some prompt) false true (.ok none) =
      .noResponse500 "Gemini") ∧
    (geminiHandler (some model) (some prompt) false true (.ok (some [])) =
      .noResponse500 "Gemini") ∧
    (geminiHandler (some model) (some prompt) false true (.ok (some (none :: rest))) =
      .successJson "" model "gemini") ∧
    (geminiHandler (some model) (some prompt) true true (.ok (some (none :: rest))) =
      .streamed [.chunk (.str "") model "gemini", .done]) := by
  refine ⟨?_, ?_, ?_, ?_, ?_, ?_⟩ <;>
    simp [geminiHandler, falsyStr, hm, hp, firstCandidateText,
      geminiStreamEvents, geminiChunks, splitSp, withSpaces]

/-- C8 amended witness. -/
theorem gemini_empty_response_handling_witness :
    (("gemini-1.5-flash" : String) ≠ "" ∧ ("hi" : String) ≠ "") ∧
    ((geminiHandler (some "gemini-1.5-flash") (some "hi") true true (.ok none) =
      .streamed [.errorEvent "No response from Gemini API"]) ∧
    (geminiHandler (some "gemini-1.5-flash") (some "hi") true true (.ok (some [])) =
      .streamed [.errorEvent "No response from Gemini API"]) ∧
    (geminiHandler (some "gemini-1.5-flash") (some "hi") false true (.ok none) =
      .noResponse500 "Gemini") ∧
    (geminiHandler (some "gemini-1.5-flash") (some "hi") false true (.ok (some [])) =
      .noResponse500 "Gemini") ∧
    (geminiHandler (some "gemini-1.5-flash") (some "hi") false true
        (.ok (some [none])) = .successJson "" "gemini-1.5-flash" "gemini") ∧
    (geminiHandler (some "gemini-1.5-flash") (some "hi") true true
        (.ok (some [none])) =
      .streamed [.chunk (.str "") "gemini-1.5-flash" "gemini", .done])) :=
  ⟨⟨by decide, by decide⟩,
    by simpa using
      (gemini_empty_response_handling "gemini-1.5-flash" "hi" [] (by decide) (by decide))⟩

/-! ### C4: quota windows -/

theorem rlCall_reset (cfg : RLConfig) (st : RLState) (now k : Nat)
    (h : cfg.windowMs ≤ now - st.windowStart) :
    rlCall cfg st now k =
      (decide (1 ≤ cfg.maxRequests),
       ⟨now, fun j => if j = k then 1 else 0⟩) := by
  simp only [rlCall, if_pos h]

/-- C4. For each of the three configured scopes: from a fresh window,
`maxRequests` calls inside the window are all admitted; one more call inside
the same window is denied; once the window duration has elapsed, the window
resets and `maxRequests` admissions are available again; and a request on the
gemini route is admitted iff both the general and the provider limiter admit
it. -/
theorem rate_limit_window_behaviour (cfg : RLConfig)
    (hcfg : cfg = generalRateLimit ∨ cfg = geminiRateLimit ∨
      cfg = perplexityRateLimit)
    (k t0 : Nat) (ts : List Nat)
    (hts : ∀ t ∈ ts, t - t0 < cfg.windowMs)
    (hlen : ts.length = cfg.maxRequests) :
    (generalRateLimit.maxRequests = 100 ∧ geminiRateLimit.maxRequests = 50 ∧
      perplexityRateLimit.maxRequests = 30 ∧
      generalRateLimit.windowMs = 15 * 60 * 1000 ∧
      geminiRateLimit.windowMs = 15 * 60 * 1000 ∧
      perplexityRateLimit.windowMs = 15 * 60 * 1000) ∧
    (∀ b ∈ (rlRun cfg (rlFresh t0) k ts).1, b = true) ∧
    (∀ t, t - t0 < cfg.windowMs →
      (rlCall cfg (rlRun cfg (rlFresh t0) k ts).2 t k).1 = false) ∧
    (∀ t', cfg.windowMs ≤ t' - t0 →
      ∀ b ∈ (rlRun cfg (rlRun cfg (rlFresh t0) k ts).2 k
          (List.replicate cfg.maxRequests t')).1, b = true) ∧
    (∀ first second st1 st2 now k2,
      (chainCall first second st1 st2 now k2).1 =
        ((rlCall first st1 now k2).1 && (rlCall second st2 now k2).1)) := by
  have hconst : 0 < cfg.windowMs ∧ 1 ≤ cfg.maxRequests := by
    rcases hcfg with h | h | h <;> subst h <;> exact ⟨by decide, by decide⟩
  have hfresh : ∀ t ∈ ts, t - (rlFresh t0).windowStart < cfg.windowMs := by
    simpa [rlFresh] using hts
  have hwin := rlRun_within cfg k ts (rlFresh t0) hfresh
  refine ⟨⟨rfl, rfl, rfl, rfl, rfl, rfl⟩, ?_, ?_, ?_, ?_⟩
  · exact rlRun_all_admitted cfg k ts (rlFresh t0) hfresh
      (by simp [rlFresh, hlen])
  · intro t ht
    have hstart : (rlRun cfg (rlFresh t0) k ts).2.windowStart = t0 := by
      simpa [rlFresh] using hwin.1
    have hcount : (rlRun cfg (rlFresh t0) k ts).2.counts k = cfg.maxRequests := by
      simpa [rlFresh, hlen] using hwin.2
    rw [rlCall_no_reset cfg _ t k (by rw [hstart]; exact ht)]
    simp [hcount]
  · intro t' ht'
    have hstart : (rlRun cfg (rlFresh t0) k ts).2.windowStart = t0 := by
      simpa [rlFresh] using hwin.1
    obtain ⟨n, hn⟩ : ∃ n, cfg.maxRequests = n + 1 :=
      ⟨cfg.maxRequests - 1, by omega⟩
    rw [hn, List.replicate_succ]
    simp only [rlRun]
    rw [rlCall_reset cfg _ t' k (by rw [hstart]; exact ht')]
    intro b hb
    simp only [List.mem_cons] at hb
    rcases hb with hb | hb
    · subst hb
      simp
      omega
    · refine rlRun_all_admitted cfg k _ _ ?_ ?_ b hb
      · intro u hu
        have : u = t' := by
          have := List.eq_of_mem_replicate hu
          exact this
        subst this
        simpa using hconst.1
      · simp
        omega
  · intro first second st1 st2 now k2
    rcases hr : rlCall first st1 now k2 with ⟨a, st1'⟩
    cases a <;> simp [chainCall, hr]

/-- C4 witness: the gemini scope, one identity, fifty admissions at time 0,
denial of the fifty-first, and a fresh window after 15 minutes. -/
theorem rate_limit_window_behaviour_witness :
    ((geminiRateLimit = generalRateLimit ∨ geminiRateLimit = geminiRateLimit ∨
        geminiRateLimit = perplexityRateLimit) ∧
      (∀ t ∈ List.replicate 50 0, t - 0 < geminiRateLimit.windowMs) ∧
      (List.replicate 50 0).length = geminiRateLimit.maxRequests) ∧
    ((generalRateLimit.maxRequests = 100 ∧ geminiRateLimit.maxRequests = 50 ∧
      perplexityRateLimit.maxRequests = 30 ∧
      generalRateLimit.windowMs = 15 * 60 * 1000 ∧
      geminiRateLimit.windowMs = 15 * 60 * 1000 ∧
      perplexityRateLimit.windowMs = 15 * 60 * 1000) ∧
    (∀ b ∈ (rlRun geminiRateLimit (rlFresh 0) 7 (List.replicate 50 0)).1,
      b = true) ∧
    (∀ t, t - 0 < geminiRateLimit.windowMs →
      (rlCall geminiRateLimit
        (rlRun geminiRateLimit (rlFresh 0) 7 (List.replicate 50 0)).2 t 7).1 =
        false) ∧
    (∀ t', geminiRateLimit.windowMs ≤ t' - 0 →
      ∀ b ∈ (rlRun geminiRateLimit
          (rlRun geminiRateLimit (rlFresh 0) 7 (List.replicate 50 0)).2 7
          (List.replicate geminiRateLimit.maxRequests t')).1, b = true) ∧
    (∀ first second st1 st2 now k2,
      (chainCall first second st1 st2 now k2).1 =
        ((rlCall first st1 now k2).1 && (rlCall second st2 now k2).1))) :=
  ⟨⟨Or.inr (Or.inl rfl), by decide, by decide⟩,
    rate_limit_window_behaviour geminiRateLimit (Or.inr (Or.inl rfl)) 7 0
      (List.replicate 50 0) (by decide) (by decide)⟩

/-! ### Helper lemmas for the reconstructor claims -/

/-- When the structured tier fires, `formatResponse` returns exactly the
structured rendering of the extracted fields. -/
theorem formatResponse_of_structured {raw sm dt : String} {ps : List String}
    (h : structuredOf raw = some (sm, dt, ps)) :
    formatResponse raw = renderStructured sm dt ps := by
  unfold structuredOf at h
  cases hp : jsonParseC (jsonSliceC raw.data) with
  | none => rw [hp] at h; exact absurd h (by simp)
  | some parsed =>
    rw [hp] at h
    have h' : (if structCheck parsed then extractStructured parsed else none) =
        some (sm, dt, ps) := h
    have hform : formatResponse raw =
        (if structCheck parsed then
          match extractStructured parsed with
          | some (sm', dt', ps') => renderStructured sm' dt' ps'
          | none => catchBranch raw
        else cleanNormStr raw) := by
      unfold formatResponse
      rw [hp]
    by_cases hc : structCheck parsed = true
    · rw [if_pos hc] at h'
      rw [hform, if_pos hc, h']
    · rw [if_neg hc] at h'
      exact absurd h' (by simp)

theorem firstIdx_eq_none (c : Char) (l : List Char) (h : c ∉ l) :
    firstIdx c l = none := by
  induction l with
  | nil => rfl
  | cons x xs ih =>
    simp only [List.mem_cons, not_or] at h
    have hx : ¬ (x = c) := fun e => h.1 e.symm
    simp [firstIdx, hx, ih h.2]

theorem firstIdx_append_cons (c : Char) (a b : List Char) (h : c ∉ a) :
    firstIdx c (a ++ c :: b) = some a.length := by
  induction a with
  | nil => simp [firstIdx]
  | cons x xs ih =>
    simp only [List.mem_cons, not_or] at h
    have hx : ¬ (x = c) := fun e => h.1 e.symm
    simp only [List.cons_append, firstIdx, if_neg hx]
    rw [show xs.append (c :: b) = xs ++ c :: b from rfl, ih h.2]
    rfl

theorem lastIdx_append_cons (c : Char) (a b : List Char) (h : c ∉ b) :
    lastIdx c (a ++ c :: b) = some a.length := by
  unfold lastIdx
  have hrev : (a ++ c :: b).reverse = b.reverse ++ c :: a.reverse := by
    simp
  rw [hrev, firstIdx_append_cons c b.reverse a.reverse (by simpa using h)]
  simp only [Option.map_some']
  congr 1
  simp only [List.length_append, List.length_cons, List.length_reverse]
  omega

theorem dropWhile_append_head_not {p : Char → Bool} (xs : List Char) (y : Char)
    (ys : List Char) (hy : p y = false) :
    (xs ++ y :: ys).dropWhile p = xs.dropWhile p ++ y :: ys := by
  rw [List.dropWhile_append]
  by_cases hxs : (xs.dropWhile p).isEmpty
  · simp only [hxs, if_pos]
    rw [List.dropWhile_cons_of_neg (by simp [hy])]
    simp only [List.isEmpty_iff] at hxs
    rw [hxs]
    rfl
  · simp [hxs]

/-- Trimming around a block whose first and last characters are not
whitespace trims only the prefix and the suffix. -/
theorem jsTrim_around (p s m : List Char) (h1 h2 : Char) (m' m'' : List Char)
    (hm1 : m = h1 :: m') (hm2 : m = m'' ++ [h2])
    (hw1 : isJsWs h1 = false) (hw2 : isJsWs h2 = false) :
    jsTrim (p ++ m ++ s) =
      p.dropWhile isJsWs ++ m ++ (s.reverse.dropWhile isJsWs).reverse := by
  unfold jsTrim
  have step1 : (p ++ m ++ s).dropWhile isJsWs =
      p.dropWhile isJsWs ++ m ++ s := by
    rw [hm1]
    rw [List.append_assoc, List.cons_append,
      dropWhile_append_head_not p h1 (m' ++ s) hw1]
    simp
  rw [step1]
  have step2 : (p.dropWhile isJsWs ++ m ++ s).reverse =
      s.reverse ++ (h2 :: m''.reverse) ++ (p.dropWhile isJsWs).reverse := by
    rw [hm2]
    simp
  rw [step2]
  have step3 : (s.reverse ++ (h2 :: m''.reverse) ++
        (p.dropWhile isJsWs).reverse).dropWhile isJsWs =
      s.reverse.dropWhile isJsWs ++ (h2 :: m''.reverse) ++
        (p.dropWhile isJsWs).reverse := by
    rw [List.append_assoc, List.cons_append,
      dropWhile_append_head_not s.reverse h2
        (m''.reverse ++ (p.dropWhile isJsWs).reverse) hw2]
    simp
  rw [step3]
  rw [hm2]
  simp

/-- The brace slice around a trimmed `{...}` block: everything before the
first `{` and after the last `}` is cut away. -/
theorem jsonSliceC_eq_core (l A B mid : List Char)
    (ht : jsTrim l = A ++ ('{' :: (mid ++ ['}'])) ++ B)
    (hA : '{' ∉ A) (hB : '}' ∉ B) :
    jsonSliceC l = '{' :: (mid ++ ['}']) := by
  have hfirst : firstIdx '{' (jsTrim l) = some A.length := by
    rw [ht, List.append_assoc, List.cons_append]
    exact firstIdx_append_cons '{' A (mid ++ ['}'] ++ B) hA
  have hlast : lastIdx '}' (jsTrim l) = some (A.length + mid.length + 1) := by
    have hre : jsTrim l = (A ++ '{' :: mid) ++ '}' :: B := by rw [ht]; simp
    rw [hre, lastIdx_append_cons '}' (A ++ '{' :: mid) B hB]
    congr 1
    simp only [List.length_append, List.length_cons, List.length_nil]
    omega
  unfold jsonSliceC
  split
  case _ i j heqi heqj =>
    rw [hfirst] at heqi
    rw [hlast] at heqj
    injection heqi with heqi
    injection heqj with heqj
    subst heqi
    subst heqj
    rw [if_pos (by omega)]
    rw [ht]
    have hdrop : ((A ++ ('{' :: (mid ++ ['}'])) ++ B).drop A.length) =
        ('{' :: (mid ++ ['}'])) ++ B := by
      rw [List.append_assoc]
      exact List.drop_left A _
    rw [hdrop]
    have hlen : A.length + mid.length + 1 + 1 - A.length =
        ('{' :: (mid ++ ['}'])).length := by
      simp only [List.length_cons, List.length_append, List.length_nil]
      omega
    rw [hlen]
    exact List.take_left _ _
  case _ hno =>
    exact (hno A.length (A.length + mid.length + 1) hfirst hlast).elim

theorem mem_of_mem_jsTrim {c : Char} {l : List Char} (h : c ∈ jsTrim l) :
    c ∈ l := by
  unfold jsTrim at h
  rw [List.mem_reverse] at h
  have h2 := (List.dropWhile_sublist (l := ((l.dropWhile isJsWs).reverse))
    (p := isJsWs)).subset h
  rw [List.mem_reverse] at h2
  exact (List.dropWhile_sublist (p := isJsWs)).subset h2

/-- Without any `{` the bounds test fails and the slice is just the trimmed
text. -/
theorem jsonSliceC_of_no_brace (l : List Char) (h : '{' ∉ l) :
    jsonSliceC l = jsTrim l := by
  have hf : firstIdx '{' (jsTrim l) = none :=
    firstIdx_eq_none _ _ (fun hm => h (mem_of_mem_jsTrim hm))
  unfold jsonSliceC
  split
  case _ i j heqi heqj =>
    rw [hf] at heqi
    cases heqi
  case _ => rfl

/-- Trimming keeps a non-whitespace head in place. -/
theorem jsTrim_cons_of_not_ws (c : Char) (rest : List Char)
    (h : isJsWs c = false) : ∃ r, jsTrim (c :: rest) = c :: r := by
  unfold jsTrim
  rw [List.dropWhile_cons_of_neg (by simp [h])]
  rw [List.reverse_cons, List.dropWhile_append]
  by_cases he : (rest.reverse.dropWhile isJsWs).isEmpty
  · rw [if_pos he]
    exact ⟨[], by rw [List.dropWhile_cons_of_neg (by simp [h])]; rfl⟩
  · rw [if_neg he]
    exact ⟨(rest.reverse.dropWhile isJsWs).reverse, by simp⟩

/-- A text whose first character is `#` is not JSON. -/
theorem jValue_hash (fuel : Nat) (rest : List Char) :
    jValue fuel ('#' :: rest) = none := by
  cases fuel with
  | zero => rfl
  | succ f =>
    rw [jValue]
    have hskip : skipJsonWs ('#' :: rest) = '#' :: rest := by
      rw [skipJsonWs, List.dropWhile_cons_of_neg (by decide)]
    rw [hskip]
    split
    all_goals first
      | rfl
      | (rename_i heq; exact absurd heq (by simp))

theorem jsonParseC_hash (rest : List Char) : jsonParseC ('#' :: rest) = none := by
  rw [jsonParseC, jValue_hash]

/-- The summary regex cannot match a text without any double quote. -/
theorem findField_eq_none_of_no_quote (pat l : List Char)
    (hpat : pat.head? = some '"') (h : '"' ∉ l) :
    findField pat l = none := by
  induction l with
  | nil => rfl
  | cons c rest ih =>
    simp only [List.mem_cons, not_or] at h
    obtain ⟨pat', hp⟩ : ∃ pat', pat = '"' :: pat' := by
      cases pat with
      | nil => exact absurd hpat (by simp)
      | cons x xs =>
        have hx : x = '"' := by simpa using hpat
        exact ⟨xs, by rw [hx]⟩
    have hc : ¬ ((c :: rest).take pat.length = pat) := by
      rw [hp]
      simp only [List.length_cons, List.take_succ_cons]
      intro he
      injection he with h1 h2
      exact h.1 h1.symm
    rw [findField, if_neg hc]
    exact ih h.2

theorem mem_collapseWsGo {c : Char} {b : Bool} {l : List Char}
    (h : c ∈ collapseWsGo b l) : c = ' ' ∨ isJsWs c = false := by
  induction l generalizing b with
  | nil => cases h
  | cons x rest ih =>
    unfold collapseWsGo at h
    by_cases hx : isJsWs x = true
    · rw [if_pos hx] at h
      cases b with
      | true => exact ih h
      | false =>
        rw [if_neg (by decide)] at h
        simp only [List.mem_cons] at h
        rcases h with h | h
        · exact Or.inl h
        · exact ih h
    · rw [if_neg hx] at h
      simp only [List.mem_cons] at h
      rcases h with h | h
      · subst h
        exact Or.inr (by simpa using hx)
      · exact ih h

theorem mem_sentenceSpace {c : Char} {l : List Char}
    (h : c ∈ sentenceSpace l) : c = ' ' ∨ c ∈ l := by
  induction l using sentenceSpace.induct with
  | case1 => cases h
  | case2 x =>
    rw [sentenceSpace] at h
    exact Or.inr h
  | case3 a b rest hab ih =>
    rw [sentenceSpace, if_pos hab] at h
    simp only [List.mem_cons] at h ⊢
    rcases h with h | h | h | h
    · tauto
    · tauto
    · tauto
    · rcases ih h with h' | h' <;> tauto
  | case4 a b rest hab ih =>
    rw [sentenceSpace, if_neg hab] at h
    simp only [List.mem_cons] at h ⊢
    rcases h with h | h
    · tauto
    · rcases ih h with h' | h'
      · tauto
      · simp only [List.mem_cons] at h'
        tauto

/-- After the whitespace collapse (stage 5) and the sentence-spacing insert
(stage 6) the text contains no line feed. -/
theorem no_newline_after_collapse (z : List Char) :
    '\n' ∉ sentenceSpace (collapseWs z) := by
  intro h
  rcases mem_sentenceSpace h with h' | h'
  · cases h'
  · rcases mem_collapseWsGo h' with h'' | h''
    · cases h''
    · cases h''

/-- The cleanup pipeline never outputs a line feed. -/
theorem no_newline_cleanNorm (s : String) : '\n' ∉ (cleanNormStr s).data := by
  unfold cleanNormStr cleanCurrencyAndPercent
  by_cases hs : normalizeStreamingText s = ""
  · rw [if_pos hs]
    rw [hs]
    intro h
    cases h
  · rw [if_neg hs]
    exact no_newline_after_collapse _

theorem mem_joinSep {c : Char} {sep : String} {l : List String}
    (h : c ∈ (joinSep sep l).data) : c ∈ sep.data ∨ ∃ x ∈ l, c ∈ x.data := by
  induction l with
  | nil => cases h
  | cons x rest ih =>
    cases rest with
    | nil =>
      rw [joinSep] at h
      exact Or.inr ⟨x, by simp, h⟩
    | cons y ys =>
      rw [joinSep] at h
      simp only [String.data_append, List.mem_append] at h
      rcases h with (h | h) | h
      · exact Or.inr ⟨x, by simp, h⟩
      · exact Or.inl h
      · rcases ih h with h' | ⟨w, hw, hcw⟩
        · exact Or.inl h'
        · exact Or.inr ⟨w, List.mem_cons_of_mem x hw, hcw⟩

/-- A character in the structured rendering is a template character or comes
from one of the cleaned fields. -/
theorem mem_renderStructured {c : Char} {sm dt : String} {ps : List String}
    (h : c ∈ (renderStructured sm dt ps).data) :
    c ∈ ("## " ++ "\n\n" ++ "\n\n### Key Points\n\n" ++ "- " ++ "\n" : String).data ∨
    c ∈ sm.data ∨ c ∈ dt.data ∨ ∃ p ∈ ps, c ∈ p.data := by
  unfold renderStructured at h
  simp only [String.data_append, List.mem_append] at h
  rcases h with ((((h | h) | h) | h) | h) | h
  · exact Or.inl (by simp at h ⊢; tauto)
  · exact Or.inr (Or.inl h)
  · exact Or.inl (by simp at h ⊢; tauto)
  · exact Or.inr (Or.inr (Or.inl h))
  · exact Or.inl (by simp at h ⊢; tauto)
  · rcases mem_joinSep h with h' | ⟨x, hx, hcx⟩
    · exact Or.inl (by simp at h' ⊢; tauto)
    · simp only [List.mem_map] at hx
      obtain ⟨p, hp, hpx⟩ := hx
      subst hpx
      simp only [String.data_append, List.mem_append] at hcx
      rcases hcx with h'' | h''
      · exact Or.inl (by simp at h'' ⊢; tauto)
      · exact Or.inr (Or.inr (Or.inr ⟨p, hp, h''⟩))

/-- The structured rendering always contains a line feed. -/
theorem newline_mem_renderStructured (sm dt : String) (ps : List String) :
    '\n' ∈ (renderStructured sm dt ps).data := by
  unfold renderStructured
  simp only [String.data_append, List.mem_append]
  have : '\n' ∈ ("\n\n" : String).data := by decide
  tauto

/-- On a brace-free, quote-free text starting with `#`, `formatResponse`
degrades to the freeform tier: the JSON parse fails and the field regexes
cannot match, so the result is the cleaned raw text. -/
theorem formatResponse_hash_plain (y : String) (z : List Char)
    (hdata : y.data = '#' :: z) (hbrace : '{' ∉ y.data)
    (hquote : '"' ∉ y.data) :
    formatResponse y = cleanNormStr y := by
  have hslice : jsonSliceC y.data = jsTrim y.data :=
    jsonSliceC_of_no_brace _ hbrace
  obtain ⟨r, hr⟩ := jsTrim_cons_of_not_ws '#' z (by decide)
  have htrim : jsTrim y.data = '#' :: r := by rw [hdata]; exact hr
  have hparse : jsonParseC (jsonSliceC y.data) = none := by
    rw [hslice, htrim]; exact jsonParseC_hash r
  have hff : findField "\"summary\":".data y.data = none :=
    findField_eq_none_of_no_quote _ _ (by decide) hquote
  unfold formatResponse
  rw [hparse]
  show catchBranch y = cleanNormStr y
  unfold catchBranch
  cases hd : findField "\"details\":".data y.data <;> simp only [hff, hd]

/-! ### C7: idempotence of the reconstructor -/

/-- C7 counterexample. `reconstruct` is not idempotent: for the structured
input below, the first application renders the heading/paragraph/bullet
layout, and the second application collapses all its newlines into single
spaces (the `\s+` cleanup also matches line feeds), giving a different
string. -/
theorem reconstruct_not_idempotent :
    formatResponse (formatResponse
        "\x7b\"summary\":\"S\",\"details\":\"D\",\"key_points\":[\"A\"],\"status\":\"ok\"\x7d") ≠
      formatResponse
        "\x7b\"summary\":\"S\",\"details\":\"D\",\"key_points\":[\"A\"],\"status\":\"ok\"\x7d" := by
  decide

/-- C7 amended: `reconstruct` is not idempotent on the structured tier:
whenever structured extraction fires (on fields that are free of quotes and
braces after cleanup), reapplying `reconstruct` to the rendered output
collapses the layout's newlines, so the second application differs from the
first. Reapplication is a no-op only on freeform-tier outputs that the
cleanup leaves fixed. -/
theorem reconstruct_changes_structured_output (raw sm dt : String)
    (ps : List String) (h : structuredOf raw = some (sm, dt, ps))
    (hclean : ((sm.data ++ dt.data ++ ps.flatMap String.data).all
      (fun c => c ≠ '"' && c ≠ '{')) = true) :
    formatResponse (formatResponse raw) ≠ formatResponse raw := by
  have h1 : formatResponse raw = renderStructured sm dt ps :=
    formatResponse_of_structured h
  simp only [List.all_append, Bool.and_eq_true, List.all_eq_true] at hclean
  obtain ⟨⟨hsm, hdt⟩, hps⟩ := hclean
  have htempl : ∀ c ∈ ("## " ++ "\n\n" ++ "\n\n### Key Points\n\n" ++ "- " ++
      "\n" : String).data, c ≠ '"' ∧ c ≠ '{' := by decide
  have hnochar : ∀ c ∈ (renderStructured sm dt ps).data, c ≠ '"' ∧ c ≠ '{' := by
    intro c hc
    rcases mem_renderStructured hc with h' | h' | h' | ⟨p, hp, hcp⟩
    · exact htempl c h'
    · simpa using hsm c h'
    · simpa using hdt c h'
    · have hmem : c ∈ ps.flatMap String.data :=
        List.mem_flatMap.mpr ⟨p, hp, hcp⟩
      simpa using hps c hmem
  have hbrace : '{' ∉ (renderStructured sm dt ps).data :=
    fun hm => (hnochar _ hm).2 rfl
  have hquote : '"' ∉ (renderStructured sm dt ps).data :=
    fun hm => (hnochar _ hm).1 rfl
  obtain ⟨z, hz⟩ : ∃ z, (renderStructured sm dt ps).data = '#' :: z := by
    unfold renderStructured
    simp only [String.data_append]
    exact ⟨_, rfl⟩
  have h2 : formatResponse (renderStructured sm dt ps) =
      cleanNormStr (renderStructured sm dt ps) :=
    formatResponse_hash_plain _ z hz hbrace hquote
  rw [h1, h2]
  intro he
  have hin : '\n' ∈ (cleanNormStr (renderStructured sm dt ps)).data := by
    rw [he]
    exact newline_mem_renderStructured sm dt ps
  exact no_newline_cleanNorm _ hin

/-- C7 amended witness. -/
theorem reconstruct_changes_structured_output_witness :
    (structuredOf
        "\x7b\"summary\":\"S\",\"details\":\"D\",\"key_points\":[\"A\"],\"status\":\"ok\"\x7d" =
          some ("S", "D", ["A"]) ∧
      ((("S" : String).data ++ ("D" : String).data ++
        (["A"] : List String).flatMap String.data).all
          (fun c => c ≠ '"' && c ≠ '{')) = true) ∧
    formatResponse (formatResponse
        "\x7b\"summary\":\"S\",\"details\":\"D\",\"key_points\":[\"A\"],\"status\":\"ok\"\x7d") ≠
      formatResponse
        "\x7b\"summary\":\"S\",\"details\":\"D\",\"key_points\":[\"A\"],\"status\":\"ok\"\x7d" :=
  ⟨⟨by decide, by decide⟩,
    reconstruct_changes_structured_output
      "\x7b\"summary\":\"S\",\"details\":\"D\",\"key_points\":[\"A\"],\"status\":\"ok\"\x7d"
      "S" "D" ["A"] (by decide) (by decide)⟩

/-! ### C10: output derived from the brace-enclosed substring -/

/-- C10 counterexample. The claim's truthiness condition is not enough: when
`key_points` is a truthy *non-array* (here the string `"K"`), the structured
branch throws (`.map` is not a function) and control falls to the regex
fallback, which scans the *whole* original text — so text before the first
`{` is not discarded. Here the fallback picks up the decoy
`"summary": "OUT"` that sits before the brace-enclosed JSON, and the output
differs from the output on the brace substring alone. -/
theorem text_outside_braces_not_discarded :
    formatResponse
        "\"summary\": \"OUT\" \x7b\"summary\":\"S\",\"details\":\"D\",\"key_points\":\"K\",\"status\":\"ok\"\x7d" =
      "## OUT\n\nD" ∧
    formatResponse
        "\x7b\"summary\":\"S\",\"details\":\"D\",\"key_points\":\"K\",\"status\":\"ok\"\x7d" =
      "## S\n\nD" ∧
    ("## OUT\n\nD" : String) ≠ "## S\n\nD" := by
  refine ⟨by decide, by decide, by decide⟩

/-- C10 amended: when the brace-enclosed substring is well-formed structured
JSON in the sense the code requires — `summary` and `details` truthy strings,
`key_points` an array whose elements survive the cleanup calls, `status`
truthy — the output is derived solely from that substring: any prefix without
`{` and any suffix without `}` is discarded, and the result equals the result
on the substring alone. -/
theorem output_from_brace_substring (pre post core sm dt : String)
    (ps : List String)
    (hpre : '{' ∉ pre.data) (hpost : '}' ∉ post.data)
    (hhead : core.data.head? = some '{') (hlast : core.data.getLast? = some '}')
    (h : structuredOf core = some (sm, dt, ps)) :
    formatResponse (pre ++ core ++ post) = renderStructured sm dt ps ∧
    formatResponse core = renderStructured sm dt ps := by
  obtain ⟨t, ht⟩ : ∃ t, core.data = '{' :: t := by
    cases hd : core.data with
    | nil => rw [hd] at hhead; cases hhead
    | cons a b =>
      rw [hd] at hhead
      injection hhead with ha
      exact ⟨b, by rw [ha]⟩
  obtain ⟨mid, hcore⟩ : ∃ mid, core.data = '{' :: (mid ++ ['}']) := by
    rcases List.eq_nil_or_concat t with h0 | ⟨t', last, h0⟩
    · subst h0
      rw [ht] at hlast
      simp at hlast
    · subst h0
      rw [List.concat_eq_append] at ht
      rw [ht] at hlast
      have : ('{' :: (t' ++ [last])).getLast? = some last := by
        rw [show ('{' :: (t' ++ [last])) = ('{' :: t') ++ [last] from by simp]
        exact List.getLast?_concat _
      rw [this] at hlast
      injection hlast with hl
      exact ⟨t', by rw [ht, hl]⟩
  have htrim1 : jsTrim ((pre ++ core ++ post).data) =
      pre.data.dropWhile isJsWs ++ core.data ++
        (post.data.reverse.dropWhile isJsWs).reverse := by
    rw [String.data_append, String.data_append]
    exact jsTrim_around pre.data post.data core.data '{' '}'
      (mid ++ ['}']) ('{' :: mid) hcore (by rw [hcore]; rfl)
      (by decide) (by decide)
  have htrim2 : jsTrim core.data = core.data := by
    have := jsTrim_around [] [] core.data '{' '}' (mid ++ ['}']) ('{' :: mid)
      hcore (by rw [hcore]; rfl) (by decide) (by decide)
    simpa using this
  have hsub1 : '{' ∉ pre.data.dropWhile isJsWs :=
    fun hm => hpre ((List.dropWhile_sublist _).subset hm)
  have hsub2 : '}' ∉ (post.data.reverse.dropWhile isJsWs).reverse := by
    intro hm
    rw [List.mem_reverse] at hm
    exact hpost (by
      have := (List.dropWhile_sublist (p := isJsWs)).subset hm
      simpa using this)
  have hs1 : jsonSliceC ((pre ++ core ++ post).data) = '{' :: (mid ++ ['}']) := by
    refine jsonSliceC_eq_core _ _ _ _ ?_ hsub1 hsub2
    rw [htrim1, hcore]
  have hs2 : jsonSliceC core.data = '{' :: (mid ++ ['}']) := by
    refine jsonSliceC_eq_core _ [] [] _ ?_ (by simp) (by simp)
    rw [htrim2, hcore]
    simp
  have hsame : structuredOf (pre ++ core ++ post) = structuredOf core := by
    unfold structuredOf
    rw [hs1, hs2]
  exact ⟨formatResponse_of_structured (hsame.trans h),
    formatResponse_of_structured h⟩

/-- C10 amended witness. -/
theorem output_from_brace_substring_witness :
    (('{' ∉ ("Answer: " : String).data) ∧ ('}' ∉ (" Thanks." : String).data) ∧
      ("\x7b\"summary\":\"S\",\"details\":\"D\",\"key_points\":[\"A\",\"B\"],\"status\":\"ok\"\x7d" : String).data.head? =
        some '{' ∧
      ("\x7b\"summary\":\"S\",\"details\":\"D\",\"key_points\":[\"A\",\"B\"],\"status\":\"ok\"\x7d" : String).data.getLast? =
        some '}' ∧
      structuredOf
        "\x7b\"summary\":\"S\",\"details\":\"D\",\"key_points\":[\"A\",\"B\"],\"status\":\"ok\"\x7d" =
        some ("S", "D", ["A", "B"])) ∧
    (formatResponse ("Answer: " ++
        "\x7b\"summary\":\"S\",\"details\":\"D\",\"key_points\":[\"A\",\"B\"],\"status\":\"ok\"\x7d" ++
        " Thanks.") = renderStructured "S" "D" ["A", "B"] ∧
      formatResponse
        "\x7b\"summary\":\"S\",\"details\":\"D\",\"key_points\":[\"A\",\"B\"],\"status\":\"ok\"\x7d" =
        renderStructured "S" "D" ["A", "B"]) :=
  ⟨⟨by decide, by decide, by decide, by decide, by decide⟩,
    output_from_brace_substring "Answer: " " Thanks."
      "\x7b\"summary\":\"S\",\"details\":\"D\",\"key_points\":[\"A\",\"B\"],\"status\":\"ok\"\x7d"
      "S" "D" ["A", "B"] (by decide) (by decide) (by decide) (by decide)
      (by decide)⟩

end GhostQuery
